import Mathlib

/-!
Verification development for the corrective-RAG repository
(`rag_system.py`, `document_processor.py`, `config.py`).

The Python code is shallowly embedded:

* Python `float` values that are only compared (never arithmetically
  combined) are modelled as `ℚ`; `0.7` becomes `mkRat 7 10`, `0.5` becomes
  `mkRat 1 2`.
* JSON values produced by `json.loads` are modelled by the inductive type
  `JValue`; a raw LLM reply is `Except Unit JValue` (`Except.error` is the
  case in which `json.loads` raises `json.JSONDecodeError`).
* Python exceptions that the embedded code can raise are modelled with
  `Except PyErr`; an exception escaping a langgraph node aborts the whole
  query, which the state machine records with the absorbing node
  `Node.errored`.
* External collaborators (the LLM, the vector store, the document
  loaders/splitters) are oracle parameters of the machine, exactly at the
  interface the Python code consumes them.
-/

/-- Python exception classes that the embedded fragments can raise. -/
inductive PyErr where
  | keyError
  | typeError
  | attributeError
  | valueError
  deriving DecidableEq, Repr

/-- JSON values as returned by `json.loads`. -/
inductive JValue where
  | jstr : String → JValue
  | jnum : ℚ → JValue
  | jbool : Bool → JValue
  | jnull : JValue
  | jarr : List JValue → JValue
  | jobj : List (String × JValue) → JValue

/-- Structural boolean equality on JSON values (the nested inductive rules out
a derived instance). -/
def JValue.beq : JValue → JValue → Bool
  | .jstr a, .jstr b => a == b
  | .jnum a, .jnum b => a == b
  | .jbool a, .jbool b => a == b
  | .jnull, .jnull => true
  | .jarr [], .jarr [] => true
  | .jarr (x :: xs), .jarr (y :: ys) =>
      JValue.beq x y && JValue.beq (.jarr xs) (.jarr ys)
  | .jobj [], .jobj [] => true
  | .jobj ((k, v) :: fs), .jobj ((l, w) :: gs) =>
      k == l && JValue.beq v w && JValue.beq (.jobj fs) (.jobj gs)
  | _, _ => false

theorem JValue.beq_iff : ∀ a b : JValue, JValue.beq a b = true ↔ a = b := by
  intro a b
  induction a, b using JValue.beq.induct
  case case9 a b h1 h2 h3 h4 h5 h6 h7 h8 =>
    cases a <;> cases b <;> simp_all [JValue.beq]
    case jarr.jarr xs ys =>
      cases xs <;> cases ys <;> simp_all
      case cons.cons x xs y ys => exact fun _ _ => (h6 x xs y ys rfl rfl rfl) rfl
    case jobj.jobj fs gs =>
      cases fs <;> cases gs <;> simp_all
      case cons.cons f fs g gs =>
        exact fun _ _ => (h8 f.1 f.2 fs g.1 g.2 gs rfl rfl rfl) rfl
  all_goals simp_all [JValue.beq]

instance : DecidableEq JValue := fun a b =>
  decidable_of_iff _ (JValue.beq_iff a b)

/-- Python `d.get(key, default)`: on a dict, look the key up (our objects have
distinct keys, so first-match lookup agrees with dict semantics); on any
non-dict JSON value (a list, a string, ...) attribute lookup of `get` raises
`AttributeError`. -/
def dictGet (v : JValue) (key : String) (dflt : JValue) : Except PyErr JValue :=
  match v with
  | .jobj fields => .ok ((fields.lookup key).getD dflt)
  | _ => .error .attributeError

/-- Python `d[key]` on a JSON value: `KeyError` when the key is missing from a
dict, `TypeError` when subscripting a non-dict with a string key. -/
def dictItem (v : JValue) (key : String) : Except PyErr JValue :=
  match v with
  | .jobj fields =>
      match fields.lookup key with
      | some x => .ok x
      | none => .error .keyError
  | _ => .error .typeError

/-- Python `acc.extend(v)`: a list extends element-wise, a string extends with
its one-character substrings, any non-iterable raises `TypeError`. -/
def pyExtend (acc : List JValue) (v : JValue) : Except PyErr (List JValue) :=
  match v with
  | .jarr xs => .ok (acc ++ xs)
  | .jstr s => .ok (acc ++ s.data.map (fun c => JValue.jstr c.toString))
  | _ => .error .typeError

/-- Python `x == "s"` for a JSON value `x` (string equality, `False` on any
non-string; `==` never raises). -/
def jEqStr (v : JValue) (s : String) : Bool :=
  match v with
  | .jstr t => t = s
  | _ => false

/-- Python `x < q` for a JSON value `x` against a numeric literal: numbers and
booleans compare numerically, everything else raises `TypeError`. -/
def pyLtNum (v : JValue) (q : ℚ) : Except PyErr Bool :=
  match v with
  | .jnum x => .ok (x < q)
  | .jbool b => .ok ((if b then (1 : ℚ) else 0) < q)
  | _ => .error .typeError

/-- Python `sep.join(xs)`: every element must be a string, otherwise
`TypeError`. -/
def asStrAll : List JValue → Option (List String)
  | [] => some []
  | .jstr s :: rest => (asStrAll rest).map (fun ss => s :: ss)
  | _ :: _ => none

def pyJoin (sep : String) (xs : List JValue) : Except PyErr String :=
  match asStrAll xs with
  | some ss => .ok (String.intercalate sep ss)
  | none => .error .typeError

/-- `config.py`: the configuration surface the refinement loop reads.
Defaults are the literal values of `Config` in `config.py`. -/
structure Config where
  LLM_MODEL : String := " deepseek-r1-distill-llama-70b"
  CHUNK_SIZE : Nat := 1000
  CHUNK_OVERLAP : Nat := 200
  MAX_RETRIEVAL_DOCS : Nat := 5
  MIN_CONFIDENCE_THRESHOLD : ℚ := mkRat 7 10
  MAX_CORRECTION_ITERATIONS : Nat := 3
  deriving Repr

/-- The shipped configuration (`config.py` literals). -/
def configDefault : Config := {}

/-- A retrieved document as consumed by `retrieve_context`: its
`page_content` and its `metadata["source"]`. -/
structure Doc where
  page_content : String
  source : String
  deriving DecidableEq, Repr

/-- The `metadata` dict of `RAGState`: empty at query start, overwritten by
`retrieve_context`, extended by `finalize_response` (`none` = key absent). -/
structure Metadata where
  retrieved_docs : Option Nat := none
  source_files : Option (List String) := none
  chunk_sizes : Option (List Nat) := none
  final_iteration_count : Option Nat := none
  total_corrections : Option Nat := none
  deriving DecidableEq, Repr

/-- `RAGState` (`rag_system.py` lines 19-28).  `confidence` and
`verification_status` hold whatever JSON value the verifier verdict carried
(Python performs no type check on the assignment), so they are `JValue`s. -/
structure RAGState where
  question : String
  context : List String
  answer : String
  confidence : JValue
  sources : List String
  corrections_made : List JValue
  verification_status : JValue
  iteration_count : Nat
  metadata : Metadata
  deriving DecidableEq

/-- The initial state built by `LegalRAGSystem.query` (lines 300-310). -/
def initState (q : String) : RAGState :=
  { question := q
    context := []
    answer := ""
    confidence := .jnum 0
    sources := []
    corrections_made := []
    verification_status := .jstr ""
    iteration_count := 0
    metadata := {} }

/-- `retrieve_context` (lines 140-162): populates `context`, `sources` and the
retrieval `metadata` from the documents the vector store returned.  (Python
`list(set(sources))` has unspecified order; we model it as order-preserving
deduplication.) -/
def retrieve_context (st : RAGState) (docs : List Doc) : RAGState :=
  { st with
    context := docs.map (fun d => d.page_content)
    sources := docs.map (fun d => d.source)
    metadata :=
      { retrieved_docs := some docs.length
        source_files := some ((docs.map (fun d => d.source)).eraseDups)
        chunk_sizes := some (docs.map (fun d => d.page_content.length)) } }

/-- `generate_answer` (lines 164-183): overwrites `answer` with the LLM output
and increments `iteration_count`. -/
def generate_answer (st : RAGState) (llmOut : String) : RAGState :=
  { st with
    answer := llmOut
    iteration_count := st.iteration_count + 1 }

/-- `verify_answer` (lines 185-224) applied to the outcome of
`json.loads(verification_response.content)`.

`Except.error ()` input is the `json.JSONDecodeError` branch: degrade to
`NEEDS_CORRECTION` / `0.5` / one sentinel entry.  On a decoded JSON value the
code first builds `all_issues` with three `.get(..., [])`/`extend` pairs and
then subscripts `verification_data["verification_status"]` and
`["confidence"]`; a `KeyError`/`AttributeError`/`TypeError` arising there is
not caught by `except json.JSONDecodeError` and propagates (the outer handler
re-raises). -/
def verify_answer (st : RAGState) (raw : Except Unit JValue) :
    Except PyErr RAGState :=
  match raw with
  | .error _ =>
      .ok { st with
              verification_status := .jstr "NEEDS_CORRECTION"
              confidence := .jnum (mkRat 1 2)
              corrections_made :=
                st.corrections_made ++ [.jstr "Verification parsing error"] }
  | .ok data => do
      let is0 ← dictGet data "issues" (.jarr [])
      let a1 ← pyExtend [] is0
      let mi ← dictGet data "missing_information" (.jarr [])
      let a2 ← pyExtend a1 mi
      let lc ← dictGet data "legal_concerns" (.jarr [])
      let a3 ← pyExtend a2 lc
      let vs ← dictItem data "verification_status"
      let cf ← dictItem data "confidence"
      .ok { st with
              verification_status := vs
              confidence := cf
              corrections_made := st.corrections_made ++ a3 }

/-- `correct_answer` (lines 226-248): joins the full `corrections_made` log
(raises `TypeError` when an entry is not a string), overwrites `answer` with
the corrector LLM output, and appends one correction-applied marker. -/
def correct_answer (st : RAGState) (llmOut : String) : Except PyErr RAGState := do
  let _issues_str ← pyJoin "\n" st.corrections_made
  .ok { st with
          answer := llmOut
          corrections_made :=
            st.corrections_made ++ [.jstr "Answer corrected based on verification"] }

/-- `finalize_response` (lines 250-262): merges the final iteration count and
the corrections total into `metadata`. -/
def finalize_response (st : RAGState) : RAGState :=
  { st with
    metadata :=
      { st.metadata with
        final_iteration_count := some st.iteration_count
        total_corrections := some st.corrections_made.length } }

/-- `should_correct` (lines 264-277).  The `or` of the second test
short-circuits exactly as in Python, so the confidence comparison (which can
raise `TypeError` on a non-numeric verdict confidence) is only evaluated when
the status is not `NEEDS_CORRECTION`. -/
def should_correct (cfg : Config) (st : RAGState) : Except PyErr String :=
  if st.iteration_count ≥ cfg.MAX_CORRECTION_ITERATIONS then
    .ok "finalize"
  else if jEqStr st.verification_status "NEEDS_CORRECTION" then
    .ok "correct"
  else do
    let low ← pyLtNum st.confidence cfg.MIN_CONFIDENCE_THRESHOLD
    if low then .ok "correct" else .ok "finalize"

/-- The nodes of the langgraph state machine built by
`create_correction_graph` (lines 115-138), plus the two absorbing outcomes:
`done` (the graph reached `END` through `finalize`) and `errored` (a node
raised, aborting `graph.ainvoke`). -/
inductive Node where
  | retrieve
  | generate
  | verify
  | correct
  | finalize
  | done
  | errored
  deriving DecidableEq, Repr

/-- The environment of one query: the configuration, the documents the vector
store returns for the question, and the three LLM oracles (generator output
per generation index, raw decoded verifier output per verification index,
corrector output per correction index). -/
structure Env where
  cfg : Config
  question : String
  docs : List Doc
  genO : Nat → String
  verO : Nat → Except Unit JValue
  corrO : Nat → String

/-- A point of the execution: current node, current `RAGState`, and how many
verifier / corrector calls have completed (indices into the oracles). -/
structure Exec where
  node : Node
  st : RAGState
  vIdx : Nat
  cIdx : Nat
  deriving DecidableEq

/-- One transition of the compiled graph: edges
`retrieve → generate → verify`, the conditional edge out of `verify` routed by
`should_correct` (`"correct" ↦ correct`, `"finalize" ↦ finalize`), the back
edge `correct → verify`, and `finalize → END`.  An exception in a node moves
to the absorbing `errored` outcome with the state unchanged. -/
def step (env : Env) (e : Exec) : Exec :=
  match e.node with
  | .retrieve => { e with st := retrieve_context e.st env.docs, node := .generate }
  | .generate => { e with st := generate_answer e.st (env.genO e.st.iteration_count), node := .verify }
  | .verify =>
      match verify_answer e.st (env.verO e.vIdx) with
      | .error _ => { e with node := .errored }
      | .ok st' =>
          match should_correct env.cfg st' with
          | .error _ => { e with st := st', node := .errored }
          | .ok d =>
              { e with
                st := st'
                vIdx := e.vIdx + 1
                node := if d = "correct" then .correct else .finalize }
  | .correct =>
      match correct_answer e.st (env.corrO e.cIdx) with
      | .error _ => { e with node := .errored }
      | .ok st' => { e with st := st', cIdx := e.cIdx + 1, node := .verify }
  | .finalize => { e with st := finalize_response e.st, node := .done }
  | .done => e
  | .errored => e

/-- The execution after `n` transitions, from the entry point `retrieve` with
the fresh per-query state. -/
def run (env : Env) : Nat → Exec
  | 0 => { node := .retrieve, st := initState env.question, vIdx := 0, cIdx := 0 }
  | n + 1 => step env (run env n)

/-!
## Document processor (`document_processor.py`)

`hashlib.md5` is external; it is modelled at its interface: a hasher
accumulates the byte stream fed to it via `update`, and `hexdigest` is an
injective function of that stream (represented here by the stream itself).
In particular two hashers fed the same bytes have the same digest, and
`MD5.new.hexdigest` stands for the md5 digest of zero bytes
(`d41d8cd98f00b204e9800998ecf8427e`).
-/

structure MD5 where
  fed : List Nat
  deriving DecidableEq

def MD5.new : MD5 := ⟨[]⟩

def MD5.update (h : MD5) (chunk : List Nat) : MD5 := ⟨h.fed ++ chunk⟩

def MD5.hexdigest (h : MD5) : List Nat := h.fed

/-- `DocumentProcessor.get_file_hash` (lines 31-37).  The loop is
`for chunk in filter(lambda: f.read(4096), b""):` — `filter` iterates its
second argument, the empty bytes literal `b""`, so the loop body never runs
(the zero-argument lambda is never called and the opened file is never read);
the digest returned is that of a hasher that was never updated. -/
def get_file_hash (fileContent : List Nat) : List Nat :=
  let hash_md5 := MD5.new
  let emptyBytes : List Nat := []
  let loopChunks := emptyBytes.filter (fun _ => true)
  let hash_md5 := loopChunks.foldl (fun h b => h.update [b]) hash_md5
  hash_md5.hexdigest

/-- A file as the ingestion path consumes it: its raw bytes, and the chunk
list the external loader/splitter pipeline (`load_documents` +
`process_documents`, delegating to PyPDFLoader/TextLoader/Docx2txtLoader and
`RecursiveCharacterTextSplitter`) produces for it — `none` when that pipeline
raises, which `process_uploaded_file` turns into a failure result. -/
structure PFile where
  content : List Nat
  chunks : Option (List Nat)
  deriving DecidableEq

/-- The mutable state of a `DocumentProcessor`: `self.vectorstore`
(`None` until the first successful ingestion) and `self.processed_doc`
(a dict from file hash to chunk list, modelled as an association list with
distinct keys). -/
structure DPState where
  vectorstore : Option (List Nat) := none
  processed_doc : List (List Nat × List Nat) := []
  deriving DecidableEq

/-- The result dict of `process_uploaded_file`. -/
structure IngestResult where
  success : Bool
  message : String
  chunks_added : Nat
  total_chunks : Nat
  deriving DecidableEq

/-- `add_docs_to_vectorstore` (lines 95-104): create the store on first use,
extend it afterwards. -/
def add_docs_to_vectorstore (dp : DPState) (chunks : List Nat) : DPState :=
  match dp.vectorstore with
  | none => { dp with vectorstore := some chunks }
  | some v => { dp with vectorstore := some (v ++ chunks) }

/-- `process_uploaded_file` (lines 106-137): skip files whose hash was seen
before, otherwise load, chunk, add to the vector store and record the hash;
any exception yields a `success=False` result and leaves the state as it
was. -/
def process_uploaded_file (dp : DPState) (f : PFile) :
    IngestResult × DPState :=
  let file_hash := get_file_hash f.content
  match dp.processed_doc.lookup file_hash with
  | some chunks =>
      ({ success := true
         message := "File already processed"
         chunks_added := 0
         total_chunks := chunks.length }, dp)
  | none =>
      match f.chunks with
      | none =>
          ({ success := false
             message := "Error processing file"
             chunks_added := 0
             total_chunks := 0 }, dp)
      | some chunks =>
          let dp1 := add_docs_to_vectorstore dp chunks
          let dp2 := { dp1 with
                        processed_doc := (file_hash, chunks) :: dp1.processed_doc }
          ({ success := true
             message := "document processed successfully"
             chunks_added := chunks.length
             total_chunks := chunks.length }, dp2)

/-- The stats dict of `get_vectorestore_stats` (note the spelling used in
`document_processor.py` line 153: `vectorestore`). -/
structure VectorstoreStats where
  total_documents : Nat
  total_chunks : Nat
  processed_files : Nat
  deriving DecidableEq

/-- `DocumentProcessor.get_vectorestore_stats` (lines 153-167). -/
def get_vectorestore_stats (dp : DPState) : VectorstoreStats :=
  match dp.vectorstore with
  | none => { total_documents := 0, total_chunks := 0, processed_files := 0 }
  | some v =>
      { total_documents := dp.processed_doc.length
        total_chunks := v.length
        processed_files := dp.processed_doc.length }

/-- The attribute names an instance of `DocumentProcessor` actually exposes:
the methods defined in the class body of `document_processor.py`.  Looking up
any other name raises `AttributeError`. -/
def documentProcessorMethodNames : List String :=
  ["get_file_hash", "load_documents", "process_documents",
   "create_vectorstore", "add_docs_to_vectorstore", "process_uploaded_file",
   "search_documents", "get_vectorestore_stats"]

/-- The dict `get_system_stats` is meant to return. -/
structure SystemStats where
  document_stats : VectorstoreStats
  config_model : String
  config_chunk_size : Nat
  config_max_retrieval_docs : Nat
  config_confidence_threshold : ℚ
  config_max_iterations : Nat
  deriving DecidableEq

/-- `LegalRAGSystem.get_system_stats` (lines 329-340).  Its body evaluates
`self.document_processor.get_vectorstore_stats()`: a Python attribute lookup
of the name `get_vectorstore_stats` on the `DocumentProcessor` instance,
which raises `AttributeError` whenever the class defines no such attribute
(it defines `get_vectorestore_stats` instead). -/
def get_system_stats (cfg : Config) (dp : DPState) : Except PyErr SystemStats :=
  if "get_vectorstore_stats" ∈ documentProcessorMethodNames then
    .ok { document_stats := get_vectorestore_stats dp
          config_model := cfg.LLM_MODEL
          config_chunk_size := cfg.CHUNK_SIZE
          config_max_retrieval_docs := cfg.MAX_RETRIEVAL_DOCS
          config_confidence_threshold := cfg.MIN_CONFIDENCE_THRESHOLD
          config_max_iterations := cfg.MAX_CORRECTION_ITERATIONS }
  else
    .error .attributeError

/-!
## Theorems
-/

@[simp]
theorem exceptOkBind {ε α β : Type} (a : α) (f : α → Except ε β) :
    (Except.ok a >>= f) = f a := rfl

@[simp]
theorem exceptErrorBind {ε α β : Type} (e : ε) (f : α → Except ε β) :
    ((Except.error e : Except ε α) >>= f) = Except.error e := rfl

/-- The structured verdict shape the verification prompt requests, as a JSON
object (all five expected fields present, the three issue lists as arrays). -/
def verdictJ (status : String) (conf : ℚ) (xs ys zs : List JValue) : JValue :=
  .jobj [("verification_status", .jstr status),
         ("confidence", .jnum conf),
         ("issues", .jarr xs),
         ("missing_information", .jarr ys),
         ("legal_concerns", .jarr zs)]

/-- Evaluating `verify_answer` on a well-shaped decoded verdict: status and
confidence are taken from the verdict and the three issue lists are appended,
in order, to `corrections_made`. -/
theorem verify_answer_verdictJ (st : RAGState) (s : String) (q : ℚ)
    (xs ys zs : List JValue) :
    verify_answer st (.ok (verdictJ s q xs ys zs)) =
      .ok { st with
              verification_status := .jstr s
              confidence := .jnum q
              corrections_made := st.corrections_made ++ (xs ++ ys ++ zs) } := by
  rfl

/-- C4 counterexample input: the verifier replied with `{}` — valid JSON that
decodes fine but lacks every expected field. -/
theorem verify_answer_raises_on_empty_object :
    verify_answer (initState "q") (.ok (.jobj [])) = .error PyErr.keyError := by
  rfl

/-- C4 (amended): whenever `json.loads` itself fails, `verify_answer` does not
raise: it degrades to `NEEDS_CORRECTION` with confidence `0.5` and appends
exactly the one sentinel entry. -/
theorem verify_answer_degrades_on_undecodable (st : RAGState) :
    verify_answer st (.error ()) =
      .ok { st with
              verification_status := .jstr "NEEDS_CORRECTION"
              confidence := .jnum (mkRat 1 2)
              corrections_made :=
                st.corrections_made ++ [.jstr "Verification parsing error"] } := by
  rfl

/-- C5: the decision function — iterations at the cap always finalize; below
the cap, `NEEDS_CORRECTION` status or a numeric confidence below the
threshold routes to `correct`; otherwise (status not `NEEDS_CORRECTION`,
numeric confidence at or above the threshold) it finalizes. -/
theorem should_correct_cases (cfg : Config) (st : RAGState) :
    (cfg.MAX_CORRECTION_ITERATIONS ≤ st.iteration_count →
      should_correct cfg st = .ok "finalize") ∧
    (st.iteration_count < cfg.MAX_CORRECTION_ITERATIONS →
      (st.verification_status = .jstr "NEEDS_CORRECTION" ∨
        ∃ q, st.confidence = .jnum q ∧ q < cfg.MIN_CONFIDENCE_THRESHOLD) →
      should_correct cfg st = .ok "correct") ∧
    (st.iteration_count < cfg.MAX_CORRECTION_ITERATIONS →
      st.verification_status ≠ .jstr "NEEDS_CORRECTION" →
      (∃ q, st.confidence = .jnum q ∧ cfg.MIN_CONFIDENCE_THRESHOLD ≤ q) →
      should_correct cfg st = .ok "finalize") := by
  refine ⟨fun hge => ?_, fun hlt hc => ?_, fun hlt hns ⟨q, hq, hge⟩ => ?_⟩
  · simp [should_correct, hge]
  · have hnot : ¬ cfg.MAX_CORRECTION_ITERATIONS ≤ st.iteration_count :=
      Nat.not_le.mpr hlt
    rcases hc with hs | ⟨q, hq, hlow⟩
    · simp [should_correct, hnot, hs, jEqStr]
    · by_cases hns : jEqStr st.verification_status "NEEDS_CORRECTION" = true
      · simp [should_correct, hnot, hns]
      · simp [should_correct, hnot, hns, hq, pyLtNum, hlow]
  · have hnot : ¬ cfg.MAX_CORRECTION_ITERATIONS ≤ st.iteration_count :=
      Nat.not_le.mpr hlt
    have hns' : jEqStr st.verification_status "NEEDS_CORRECTION" = false := by
      cases hst : st.verification_status <;> simp_all [jEqStr]
    simp [should_correct, hnot, hns', hq, pyLtNum, not_lt.mpr hge]

/-- C5 witness: the three branches at concrete states under the shipped
configuration. -/
theorem should_correct_cases_witness :
    should_correct configDefault
      { initState "q" with iteration_count := 3 } = .ok "finalize" ∧
    should_correct configDefault
      { initState "q" with iteration_count := 1
                           verification_status := .jstr "NEEDS_CORRECTION"
                           confidence := .jnum (mkRat 9 10) } = .ok "correct" ∧
    should_correct configDefault
      { initState "q" with iteration_count := 1
                           verification_status := .jstr "VERIFIED"
                           confidence := .jnum (mkRat 9 10) } = .ok "finalize" :=
  ⟨(should_correct_cases configDefault _).1 (by decide),
   (should_correct_cases configDefault _).2.1 (by decide) (Or.inl rfl),
   (should_correct_cases configDefault _).2.2 (by decide) (by simp [initState])
     ⟨mkRat 9 10, rfl, by decide⟩⟩

/-- C8: `get_system_stats` raises `AttributeError` on every system state
(including the empty index): it looks up `get_vectorstore_stats` on the
document processor, whose class only defines `get_vectorestore_stats`. -/
theorem get_system_stats_raises (cfg : Config) (dp : DPState) :
    get_system_stats cfg dp = .error PyErr.attributeError := by
  rfl

/-- `verify_answer` never touches `question`, `context`, `sources` or
`iteration_count`, and can only append to `corrections_made`. -/
theorem verify_answer_ok_fields (st : RAGState) (raw : Except Unit JValue)
    (st' : RAGState) (h : verify_answer st raw = .ok st') :
    st'.question = st.question ∧ st'.context = st.context ∧
    st'.sources = st.sources ∧ st'.iteration_count = st.iteration_count ∧
    ∃ t, st'.corrections_made = st.corrections_made ++ t := by
  cases raw with
  | error e =>
      simp only [verify_answer, Except.ok.injEq] at h
      subst h
      exact ⟨rfl, rfl, rfl, rfl, ⟨_, rfl⟩⟩
  | ok data =>
      rw [verify_answer] at h
      rcases h1 : dictGet data "issues" (.jarr []) with e1 | is0 <;>
        rw [h1] at h <;> simp only [exceptOkBind, exceptErrorBind] at h
      · simp at h
      rcases h2 : pyExtend [] is0 with e2 | a1 <;>
        rw [h2] at h <;> simp only [exceptOkBind, exceptErrorBind] at h
      · simp at h
      rcases h3 : dictGet data "missing_information" (.jarr []) with e3 | mi <;>
        rw [h3] at h <;> simp only [exceptOkBind, exceptErrorBind] at h
      · simp at h
      rcases h4 : pyExtend a1 mi with e4 | a2 <;>
        rw [h4] at h <;> simp only [exceptOkBind, exceptErrorBind] at h
      · simp at h
      rcases h5 : dictGet data "legal_concerns" (.jarr []) with e5 | lc <;>
        rw [h5] at h <;> simp only [exceptOkBind, exceptErrorBind] at h
      · simp at h
      rcases h6 : pyExtend a2 lc with e6 | a3 <;>
        rw [h6] at h <;> simp only [exceptOkBind, exceptErrorBind] at h
      · simp at h
      rcases h7 : dictItem data "verification_status" with e7 | vs <;>
        rw [h7] at h <;> simp only [exceptOkBind, exceptErrorBind] at h
      · simp at h
      rcases h8 : dictItem data "confidence" with e8 | cf <;>
        rw [h8] at h <;> simp only [exceptOkBind, exceptErrorBind] at h
      · simp at h
      simp only [Except.ok.injEq] at h
      subst h
      exact ⟨rfl, rfl, rfl, rfl, ⟨a3, rfl⟩⟩

/-- `correct_answer` never touches `question`, `context`, `sources` or
`iteration_count`, and appends exactly the one correction-applied marker. -/
theorem correct_answer_ok_fields (st : RAGState) (llmOut : String)
    (st' : RAGState) (h : correct_answer st llmOut = .ok st') :
    st'.question = st.question ∧ st'.context = st.context ∧
    st'.sources = st.sources ∧ st'.iteration_count = st.iteration_count ∧
    st'.corrections_made =
      st.corrections_made ++ [.jstr "Answer corrected based on verification"] := by
  rw [correct_answer] at h
  rcases hj : pyJoin "\n" st.corrections_made with e | s <;> rw [hj] at h
  · simp at h
  simp only [exceptOkBind, Except.ok.injEq] at h
  subst h
  exact ⟨rfl, rfl, rfl, rfl, rfl⟩

/-- No edge of the compiled graph enters `retrieve`: it is the entry point
only. -/
theorem step_node_ne_retrieve (env : Env) (e : Exec) :
    (step env e).node ≠ Node.retrieve := by
  obtain ⟨node, st, vi, ci⟩ := e
  cases node <;> simp [step]
  case verify =>
    rcases hv : verify_answer st (env.verO vi) with _ | st'
    · simp [hv]
    rcases hs : should_correct env.cfg st' with _ | d <;> simp [hv, hs]
    by_cases hd : d = "correct" <;> simp [hd]
  case correct =>
    rcases hc : correct_answer st (env.corrO ci) with _ | st' <;> simp [hc]

/-- `generate` is only entered from `retrieve`. -/
theorem step_node_ne_generate (env : Env) (e : Exec)
    (h : e.node ≠ Node.retrieve) : (step env e).node ≠ Node.generate := by
  obtain ⟨node, st, vi, ci⟩ := e
  cases node
  case retrieve => exact absurd rfl h
  all_goals simp [step]
  case verify =>
    rcases hv : verify_answer st (env.verO vi) with _ | st'
    · simp [hv]
    rcases hs : should_correct env.cfg st' with _ | d <;> simp [hv, hs]
    by_cases hd : d = "correct" <;> simp [hd]
  case correct =>
    rcases hc : correct_answer st (env.corrO ci) with _ | st' <;> simp [hc]

/-- Every node except `generate` leaves `iteration_count` unchanged. -/
theorem step_iteration_eq (env : Env) (e : Exec)
    (h : e.node ≠ Node.generate) :
    (step env e).st.iteration_count = e.st.iteration_count := by
  obtain ⟨node, st, vi, ci⟩ := e
  cases node
  case generate => exact absurd rfl h
  all_goals simp [step, retrieve_context, finalize_response]
  case verify =>
    rcases hv : verify_answer st (env.verO vi) with _ | st'
    · simp [hv]
    rcases hs : should_correct env.cfg st' with _ | d <;> simp [hv, hs] <;>
      exact (verify_answer_ok_fields st (env.verO vi) st' hv).2.2.2.1
  case correct =>
    rcases hc : correct_answer st (env.corrO ci) with _ | st'
    · simp [hc]
    simp [hc]
    exact (correct_answer_ok_fields st (env.corrO ci) st' hc).2.2.2.1

/-- Every node except `retrieve` leaves `context` and `sources` unchanged. -/
theorem step_context_sources_eq (env : Env) (e : Exec)
    (h : e.node ≠ Node.retrieve) :
    (step env e).st.context = e.st.context ∧
    (step env e).st.sources = e.st.sources := by
  obtain ⟨node, st, vi, ci⟩ := e
  cases node
  case retrieve => exact absurd rfl h
  all_goals simp [step, generate_answer, finalize_response]
  case verify =>
    rcases hv : verify_answer st (env.verO vi) with _ | st'
    · simp [hv]
    obtain ⟨-, hctx, hsrc, -, -⟩ := verify_answer_ok_fields st (env.verO vi) st' hv
    rcases hs : should_correct env.cfg st' with _ | d <;> simp [hv, hs, hctx, hsrc]
  case correct =>
    rcases hc : correct_answer st (env.corrO ci) with _ | st'
    · simp [hc]
    obtain ⟨-, hctx, hsrc, -, -⟩ := correct_answer_ok_fields st (env.corrO ci) st' hc
    simp [hc, hctx, hsrc]

/-- Every transition can only append to `corrections_made`. -/
theorem step_corrections_extend (env : Env) (e : Exec) :
    ∃ t, (step env e).st.corrections_made = e.st.corrections_made ++ t := by
  obtain ⟨node, st, vi, ci⟩ := e
  cases node
  case retrieve => exact ⟨[], by simp [step, retrieve_context]⟩
  case generate => exact ⟨[], by simp [step, generate_answer]⟩
  case finalize => exact ⟨[], by simp [step, finalize_response]⟩
  case done => exact ⟨[], by simp [step]⟩
  case errored => exact ⟨[], by simp [step]⟩
  case verify =>
    rcases hv : verify_answer st (env.verO vi) with _ | st'
    · exact ⟨[], by simp [step, hv]⟩
    obtain ⟨-, -, -, -, t, ht⟩ := verify_answer_ok_fields st (env.verO vi) st' hv
    rcases hs : should_correct env.cfg st' with _ | d
    · exact ⟨t, by simp [step, hv, hs]; exact ht⟩
    · exact ⟨t, by simp [step, hv, hs]; exact ht⟩
  case correct =>
    rcases hc : correct_answer st (env.corrO ci) with _ | st'
    · exact ⟨[], by simp [step, hc]⟩
    obtain ⟨-, -, -, -, ht⟩ := correct_answer_ok_fields st (env.corrO ci) st' hc
    exact ⟨[.jstr "Answer corrected based on verification"], by simp [step, hc]; exact ht⟩

/-- After the first transition the machine is at `generate` with the retrieved
context in place. -/
theorem run_one (env : Env) :
    run env 1 =
      { node := Node.generate
        st := retrieve_context (initState env.question) env.docs
        vIdx := 0, cIdx := 0 } := rfl

/-- After two transitions the machine is at `verify`, one generation done. -/
theorem run_two (env : Env) :
    run env 2 =
      { node := Node.verify
        st := generate_answer (retrieve_context (initState env.question) env.docs)
                (env.genO 0)
        vIdx := 0, cIdx := 0 } := rfl

/-- `retrieve` is never revisited once the query has started. -/
theorem run_node_ne_retrieve (env : Env) (n : Nat) (h : 1 ≤ n) :
    (run env n).node ≠ Node.retrieve := by
  cases n with
  | zero => omega
  | succ m => exact step_node_ne_retrieve env (run env m)

/-- `generate` is visited exactly at the second transition and never again. -/
theorem run_node_ne_generate (env : Env) (n : Nat) (h : 2 ≤ n) :
    (run env n).node ≠ Node.generate := by
  cases n with
  | zero => omega
  | succ m =>
      exact step_node_ne_generate env (run env m)
        (run_node_ne_retrieve env m (by omega))

/-- From the second transition on, `iteration_count` is frozen at `1`, for
every oracle behaviour. -/
theorem run_iteration_count_one (env : Env) (n : Nat) (h : 2 ≤ n) :
    (run env n).st.iteration_count = 1 := by
  induction n, h using Nat.le_induction with
  | base => simp [run_two, generate_answer, retrieve_context, initState]
  | succ n hn ih =>
      have hne : (run env n).node ≠ Node.generate := run_node_ne_generate env n hn
      calc (run env (n + 1)).st.iteration_count
          = (run env n).st.iteration_count := step_iteration_eq env (run env n) hne
        _ = 1 := ih

/-- From the first transition on, `context` and `sources` are exactly what
`retrieve` computed from the retrieved documents, for every oracle
behaviour. -/
theorem run_context_sources (env : Env) (n : Nat) (h : 1 ≤ n) :
    (run env n).st.context = env.docs.map (fun d => d.page_content) ∧
    (run env n).st.sources = env.docs.map (fun d => d.source) := by
  induction n, h using Nat.le_induction with
  | base => simp [run_one, retrieve_context, initState]
  | succ n hn ih =>
      have hne : (run env n).node ≠ Node.retrieve := run_node_ne_retrieve env n hn
      obtain ⟨hctx, hsrc⟩ := step_context_sources_eq env (run env n) hne
      exact ⟨hctx.trans ih.1, hsrc.trans ih.2⟩

/-- C2: the correction edge re-enters verification, never generation; only the
`generate` node changes `iteration_count`; hence, whatever the verifier
replies, `iteration_count` equals `1` in every state reachable after the
first generation (from the second transition on). -/
theorem single_generation_per_query :
    (∀ env e, e.node = Node.correct → (step env e).node ≠ Node.generate) ∧
    (∀ env e, e.node ≠ Node.generate →
      (step env e).st.iteration_count = e.st.iteration_count) ∧
    (∀ env n, 2 ≤ n → (run env n).st.iteration_count = 1) := by
  refine ⟨fun env e hc => ?_, fun env e => step_iteration_eq env e,
    fun env n hn => run_iteration_count_one env n hn⟩
  exact step_node_ne_generate env e (by rw [hc]; simp)

/-- A concrete retrieval outcome for witnesses. -/
def docsSample : List Doc :=
  [{ page_content := "Clause 12: either party may terminate with 30 days notice."
     source := "contract.pdf" }]

/-- A concrete query environment whose verifier always answers with a
well-formed `NEEDS_CORRECTION` verdict carrying empty issue lists. -/
def envStubborn : Env :=
  { cfg := configDefault
    question := "What are the termination clauses?"
    docs := docsSample
    genO := fun _ => "draft answer"
    verO := fun _ => .ok (verdictJ "NEEDS_CORRECTION" (mkRat 3 10) [] [] [])
    corrO := fun _ => "revised answer" }

/-- C2 witness: the conjuncts at concrete inputs — stepping a `correct` node
does not reach `generate`, a `verify` step leaves `iteration_count` at its
current value, and two transitions into a concrete query the count is `1`. -/
theorem single_generation_per_query_witness :
    (step envStubborn
      { node := Node.correct, st := initState "q", vIdx := 0, cIdx := 0 }).node ≠
        Node.generate ∧
    (step envStubborn
      { node := Node.verify, st := initState "q", vIdx := 0, cIdx := 0 }).st.iteration_count =
      ({ node := Node.verify, st := initState "q", vIdx := 0, cIdx := 0 } : Exec).st.iteration_count ∧
    (run envStubborn 2).st.iteration_count = 1 :=
  ⟨single_generation_per_query.1 envStubborn _ rfl,
   single_generation_per_query.2.1 envStubborn _ (by simp),
   single_generation_per_query.2.2 envStubborn 2 (by decide)⟩

/-- C6: for every query environment and every point from the first transition
on, `context` and `sources` are exactly the parallel projections of the
retrieved documents — populated by `retrieve` before the first generation,
unchanged by every later step — and in particular have equal length. -/
theorem context_sources_set_once_per_query (env : Env) (n : Nat) (h : 1 ≤ n) :
    (run env n).st.context = env.docs.map (fun d => d.page_content) ∧
    (run env n).st.sources = env.docs.map (fun d => d.source) ∧
    (run env n).st.context.length = (run env n).st.sources.length := by
  obtain ⟨hctx, hsrc⟩ := run_context_sources env n h
  exact ⟨hctx, hsrc, by rw [hctx, hsrc]; simp⟩

/-- C6 witness: the invariant read off one transition into a concrete
query. -/
theorem context_sources_set_once_per_query_witness :
    (run envStubborn 1).st.context =
      envStubborn.docs.map (fun d => d.page_content) ∧
    (run envStubborn 1).st.sources =
      envStubborn.docs.map (fun d => d.source) ∧
    (run envStubborn 1).st.context.length =
      (run envStubborn 1).st.sources.length :=
  context_sources_set_once_per_query envStubborn 1 (by decide)

/-- C7: `corrections_made` is append-only — every transition of the graph can
only extend it; a verification against a well-shaped verdict appends exactly
`issues ++ missing_information ++ legal_concerns`; a correction appends
exactly the one correction-applied marker. -/
theorem corrections_made_append_only :
    (∀ env e, ∃ t,
      (step env e).st.corrections_made = e.st.corrections_made ++ t) ∧
    (∀ (st : RAGState) (s : String) (q : ℚ) (xs ys zs : List JValue),
      verify_answer st (.ok (verdictJ s q xs ys zs)) =
        .ok { st with
                verification_status := .jstr s
                confidence := .jnum q
                corrections_made := st.corrections_made ++ (xs ++ ys ++ zs) }) ∧
    (∀ st llmOut st', correct_answer st llmOut = .ok st' →
      st'.corrections_made =
        st.corrections_made ++ [.jstr "Answer corrected based on verification"]) :=
  ⟨fun env e => step_corrections_extend env e,
   fun st s q xs ys zs => verify_answer_verdictJ st s q xs ys zs,
   fun st llmOut st' h => (correct_answer_ok_fields st llmOut st' h).2.2.2.2⟩

/-- C7 witness: a concrete correction step appends exactly the marker. -/
theorem corrections_made_append_only_witness :
    ({ initState "q" with
        answer := "x"
        corrections_made :=
          [.jstr "Answer corrected based on verification"] } : RAGState).corrections_made =
      (initState "q").corrections_made ++
        [.jstr "Answer corrected based on verification"] :=
  corrections_made_append_only.2.2 (initState "q") "x" _ rfl

/-- `asStrAll` distributes over append (all-strings on both sides). -/
theorem asStrAll_append_isSome (xs ys : List JValue) :
    (asStrAll (xs ++ ys)).isSome ↔ (asStrAll xs).isSome ∧ (asStrAll ys).isSome := by
  induction xs with
  | nil => simp [asStrAll]
  | cons x xs ih => cases x <;> simp [asStrAll, ih, and_assoc]

/-- The verify/correct two-cycle: once the query is past its single
generation, any verifier that keeps answering a well-shaped
`NEEDS_CORRECTION` verdict (with all-string issue lists) keeps the machine
bouncing between `verify` and `correct` forever — `iteration_count` is stuck
at `1`, which never reaches a cap of `2` or more, so `should_correct` keeps
choosing `"correct"`. -/
theorem stubborn_verifier_cycle (env : Env)
    (hmax : 2 ≤ env.cfg.MAX_CORRECTION_ITERATIONS)
    (hver : ∀ i, ∃ q xs ys zs,
      env.verO i = .ok (verdictJ "NEEDS_CORRECTION" q xs ys zs) ∧
      (asStrAll (xs ++ (ys ++ zs))).isSome) :
    ∀ n, ((run env (n + 2)).node = Node.verify ∨
          (run env (n + 2)).node = Node.correct) ∧
      (run env (n + 2)).st.iteration_count = 1 ∧
      (asStrAll (run env (n + 2)).st.corrections_made).isSome := by
  intro n
  induction n with
  | zero =>
      refine ⟨Or.inl (by rw [run_two]), by rw [run_two]; rfl, ?_⟩
      rw [run_two]
      simp [generate_answer, retrieve_context, initState, asStrAll]
  | succ m ih =>
      obtain ⟨hnode, hiter, hstr⟩ := ih
      have hrun : run env (m + 1 + 2) = step env (run env (m + 2)) := rfl
      rcases hnode with hv | hc
      · -- at `verify`: the stubborn verdict routes to `correct`
        obtain ⟨q, xs, ys, zs, ho, hok⟩ := hver (run env (m + 2)).vIdx
        have h1 : verify_answer (run env (m + 2)).st (env.verO (run env (m + 2)).vIdx) =
            .ok { (run env (m + 2)).st with
                    verification_status := .jstr "NEEDS_CORRECTION"
                    confidence := .jnum q
                    corrections_made :=
                      (run env (m + 2)).st.corrections_made ++ (xs ++ ys ++ zs) } := by
          rw [ho]; exact verify_answer_verdictJ _ _ _ _ _ _
        have h2 : should_correct env.cfg
            { (run env (m + 2)).st with
                verification_status := .jstr "NEEDS_CORRECTION"
                confidence := .jnum q
                corrections_made :=
                  (run env (m + 2)).st.corrections_made ++ (xs ++ ys ++ zs) } =
            .ok "correct" := by
          simp [should_correct, hiter, jEqStr]
          omega
        have h3 : step env (run env (m + 2)) =
            { node := Node.correct
              st := { (run env (m + 2)).st with
                        verification_status := .jstr "NEEDS_CORRECTION"
                        confidence := .jnum q
                        corrections_made :=
                          (run env (m + 2)).st.corrections_made ++ (xs ++ ys ++ zs) }
              vIdx := (run env (m + 2)).vIdx + 1
              cIdx := (run env (m + 2)).cIdx } := by
          simp only [step, hv, h1, h2]
          simp
        rw [hrun, h3]
        refine ⟨Or.inr rfl, hiter, ?_⟩
        rw [show (xs ++ ys ++ zs) = (xs ++ (ys ++ zs)) by simp]
        rw [asStrAll_append_isSome]
        exact ⟨hstr, hok⟩
      · -- at `correct`: the join succeeds and the machine re-enters `verify`
        obtain ⟨ss, hss⟩ := Option.isSome_iff_exists.mp hstr
        have h1 : correct_answer (run env (m + 2)).st (env.corrO (run env (m + 2)).cIdx) =
            .ok { (run env (m + 2)).st with
                    answer := env.corrO (run env (m + 2)).cIdx
                    corrections_made :=
                      (run env (m + 2)).st.corrections_made ++
                        [.jstr "Answer corrected based on verification"] } := by
          rw [correct_answer]
          simp [pyJoin, hss]
        have h3 : step env (run env (m + 2)) =
            { node := Node.verify
              st := { (run env (m + 2)).st with
                        answer := env.corrO (run env (m + 2)).cIdx
                        corrections_made :=
                          (run env (m + 2)).st.corrections_made ++
                            [.jstr "Answer corrected based on verification"] }
              vIdx := (run env (m + 2)).vIdx
              cIdx := (run env (m + 2)).cIdx + 1 } := by
          simp only [step, hc, h1]
        rw [hrun, h3]
        refine ⟨Or.inl rfl, hiter, ?_⟩
        rw [asStrAll_append_isSome]
        exact ⟨hstr, by simp [asStrAll]⟩

/-- C1: under the shipped configuration (`MAX_CORRECTION_ITERATIONS = 3`) a
verifier that always answers `NEEDS_CORRECTION` keeps the query cycling
between `verify` and `correct` forever: no point of the run is ever at
`finalize` (nor past it), refuting the claim that every verdict sequence
reaches `FINALIZE` within the iteration budget. -/
theorem stubborn_query_never_finalizes :
    ∀ n, (run envStubborn n).node ≠ Node.finalize ∧
         (run envStubborn n).node ≠ Node.done := by
  intro n
  match n with
  | 0 => exact ⟨by simp [run], by simp [run]⟩
  | 1 => exact ⟨by rw [run_one]; simp, by rw [run_one]; simp⟩
  | (m + 2) =>
      have h := stubborn_verifier_cycle envStubborn (by decide)
        (fun i => ⟨mkRat 3 10, [], [], [], rfl, by simp [asStrAll]⟩) m
      rcases h.1 with hv | hc
      · rw [hv]; exact ⟨by simp, by simp⟩
      · rw [hc]; exact ⟨by simp, by simp⟩

/-- A second stubborn environment whose verifier also reports one concrete
issue on every verification round. -/
def envStubbornIssue : Env :=
  { cfg := configDefault
    question := "What are the payment terms?"
    docs := docsSample
    genO := fun _ => "draft answer"
    verO := fun _ =>
      .ok (verdictJ "NEEDS_CORRECTION" (mkRat 2 10)
        [.jstr "claim not supported by the context"] [] [])
    corrO := fun _ => "revised answer" }

/-- C3: with the shipped `MAX_CORRECTION_ITERATIONS = 3` and a verifier that
always answers `NEEDS_CORRECTION`, the query never reaches `finalize` and
`iteration_count` never exceeds `1` — so it cannot finalize with
`iteration_count = max_correction_iterations` as the claim states. -/
theorem stubborn_query_iteration_stuck :
    ∀ n, (run envStubbornIssue n).node ≠ Node.finalize ∧
         (run envStubbornIssue n).st.iteration_count ≤ 1 := by
  intro n
  match n with
  | 0 => exact ⟨by simp [run], by simp [run, initState]⟩
  | 1 => exact ⟨by rw [run_one]; simp, by rw [run_one]; simp [retrieve_context, initState]⟩
  | (m + 2) =>
      have h := stubborn_verifier_cycle envStubbornIssue (by decide)
        (fun i => ⟨mkRat 2 10, [.jstr "claim not supported by the context"], [], [],
          rfl, by simp [asStrAll]⟩) m
      refine ⟨?_, by rw [h.2.1]⟩
      rcases h.1 with hv | hc
      · rw [hv]; simp
      · rw [hc]; simp

/-- Ingesting any file while the (unique, content-independent) hash is already
recorded returns the dedup result and leaves the state unchanged. -/
theorem process_on_seen_hash (dp : DPState) (g : PFile) (chunks : List Nat)
    (h : dp.processed_doc.lookup ([] : List Nat) = some chunks) :
    process_uploaded_file dp g =
      ({ success := true
         message := "File already processed"
         chunks_added := 0
         total_chunks := chunks.length }, dp) := by
  unfold process_uploaded_file
  simp only [show get_file_hash g.content = ([] : List Nat) from rfl, h]

/-- A successful ingestion leaves the (single possible) hash recorded in
`processed_doc`. -/
theorem success_records_hash (dp : DPState) (f : PFile)
    (h : (process_uploaded_file dp f).1.success = true) :
    ∃ chunks, (process_uploaded_file dp f).2.processed_doc.lookup ([] : List Nat) =
      some chunks := by
  unfold process_uploaded_file at h ⊢
  simp only [show get_file_hash f.content = ([] : List Nat) from rfl] at h ⊢
  rcases hl : dp.processed_doc.lookup ([] : List Nat) with _ | chunks <;>
    simp only [hl] at h ⊢
  · rcases hc : f.chunks with _ | chunks <;> simp only [hc] at h ⊢
    · simp at h
    · exact ⟨chunks, by simp [List.lookup]⟩
  · exact ⟨chunks, rfl⟩

/-- C9: `get_file_hash` returns the digest of zero bytes for every file
content (the chunk loop iterates over the empty bytes literal and never reads
the file), so all files get the same hash; consequently, once any ingestion
has succeeded, every later ingestion of any file (any content whatsoever) is
deduplicated away: `success=true`, `chunks_added=0`, message
`"File already processed"`. -/
theorem file_hash_constant_collapses_dedup :
    (∀ content : List Nat, get_file_hash content = MD5.new.hexdigest) ∧
    (∀ (dp : DPState) (f g : PFile),
      (process_uploaded_file dp f).1.success = true →
      (process_uploaded_file (process_uploaded_file dp f).2 g).1.success = true ∧
      (process_uploaded_file (process_uploaded_file dp f).2 g).1.chunks_added = 0 ∧
      (process_uploaded_file (process_uploaded_file dp f).2 g).1.message =
        "File already processed") := by
  refine ⟨fun content => rfl, fun dp f g hsucc => ?_⟩
  obtain ⟨chunks, hm⟩ := success_records_hash dp f hsucc
  rw [process_on_seen_hash _ g chunks hm]
  exact ⟨rfl, rfl, rfl⟩

/-- C9 witness: an empty processor ingests a first file successfully; a second
file with different bytes and different chunks is then reported as already
processed with zero chunks added. -/
theorem file_hash_constant_collapses_dedup_witness :
    (process_uploaded_file {} ⟨[1, 2, 3], some [7, 8]⟩).1.success = true ∧
    ((process_uploaded_file (process_uploaded_file {} ⟨[1, 2, 3], some [7, 8]⟩).2
        ⟨[9], some [5]⟩).1.success = true ∧
     (process_uploaded_file (process_uploaded_file {} ⟨[1, 2, 3], some [7, 8]⟩).2
        ⟨[9], some [5]⟩).1.chunks_added = 0 ∧
     (process_uploaded_file (process_uploaded_file {} ⟨[1, 2, 3], some [7, 8]⟩).2
        ⟨[9], some [5]⟩).1.message = "File already processed") :=
  ⟨rfl, file_hash_constant_collapses_dedup.2 {} ⟨[1, 2, 3], some [7, 8]⟩
    ⟨[9], some [5]⟩ rfl⟩

/-- C10: re-ingesting the same file after a successful ingestion reports
`success=true` and `chunks_added=0`. -/
theorem reingest_same_file_reports_zero (dp : DPState) (f : PFile)
    (hsucc : (process_uploaded_file dp f).1.success = true) :
    (process_uploaded_file (process_uploaded_file dp f).2 f).1.success = true ∧
    (process_uploaded_file (process_uploaded_file dp f).2 f).1.chunks_added = 0 := by
  obtain ⟨chunks, hm⟩ := success_records_hash dp f hsucc
  rw [process_on_seen_hash _ f chunks hm]
  exact ⟨rfl, rfl⟩

/-- C10 witness: a fresh processor, one concrete file ingested twice. -/
theorem reingest_same_file_reports_zero_witness :
    (process_uploaded_file {} ⟨[4, 4], some [1, 2, 3]⟩).1.success = true ∧
    ((process_uploaded_file (process_uploaded_file {} ⟨[4, 4], some [1, 2, 3]⟩).2
        ⟨[4, 4], some [1, 2, 3]⟩).1.success = true ∧
     (process_uploaded_file (process_uploaded_file {} ⟨[4, 4], some [1, 2, 3]⟩).2
        ⟨[4, 4], some [1, 2, 3]⟩).1.chunks_added = 0) :=
  ⟨rfl, reingest_same_file_reports_zero {} ⟨[4, 4], some [1, 2, 3]⟩ rfl⟩
